import Mathlib

/-!
Shallow embedding of the `distribution_math` repository
(`src/distribution_math/gaus_1D.py` and `src/distributions/multinomial.py`).

Python floats are modelled as exact rationals (`ℚ`) for the algebraic
operations and coerced to `ℝ` where the source applies transcendental
functions (`math.log`, `** 0.5`).  Python exceptions become an `Except`
layer with a small enumeration of the exception kinds the modelled code
can raise.  Python dicts keyed by the contiguous integers `0 .. size-1`
are modelled positionally as Lean lists (list position `i` is dict key
`i`); dict lookups on an integer key `k` succeed exactly when
`0 ≤ k < length`.
-/

namespace DistributionMath

/-- The Python exception kinds the modelled code can raise.
`valueError` covers explicit `raise ValueError` and `math` domain
errors, `assertionError` covers failed `assert` statements,
`zeroDivisionError` a float division by zero, `keyError` a failed dict
lookup, `typeError` arithmetic on `None`, and `attributeError` an access
to an attribute that has not been assigned yet. -/
inductive Err where
  | valueError
  | assertionError
  | zeroDivisionError
  | keyError
  | typeError
  | attributeError
  deriving DecidableEq, Repr

/-- Decidable equality for `Except`, used to evaluate the embedded
operations on concrete inputs. -/
instance {e a : Type} [DecidableEq e] [DecidableEq a] : DecidableEq (Except e a)
  | .error x, .error y =>
    match decEq x y with
    | isTrue h => isTrue (by rw [h])
    | isFalse h => isFalse (by intro hh; injection hh; exact h (by assumption))
  | .error _, .ok _ => isFalse (by intro h; exact Except.noConfusion h)
  | .ok _, .error _ => isFalse (by intro h; exact Except.noConfusion h)
  | .ok x, .ok y =>
    match decEq x y with
    | isTrue h => isTrue (by rw [h])
    | isFalse h => isFalse (by intro hh; injection hh; exact h (by assumption))

/-- State of `Gaus1D` (`gaus_1D.py`).  The `dist_type` attribute is the
constant class-name string, used only in exception messages and the
JSON round trip; it is not part of the numeric state and is omitted. -/
structure Gaus1D where
  mean : ℚ
  variance : ℚ
  n : ℚ
  M2 : ℚ
  deriving DecidableEq, Repr

/-- `Gaus1D.__init__` (gaus_1D.py lines 6-21): asserts `variance != 0`
and `prior_strength >= 2`, then sets `mean`, `variance`, `n` and
`M2 = variance * (n - 1)`.  Note the assert only rejects variance
exactly zero; a negative variance passes. -/
def Gaus1D.init (mean variance : ℚ) (prior_strength : ℚ := 2) : Except Err Gaus1D :=
  if variance = 0 then .error .assertionError
  else if prior_strength < 2 then .error .assertionError
  else .ok ⟨mean, variance, prior_strength, variance * (prior_strength - 1)⟩

/-- `Gaus1D.update` (gaus_1D.py lines 31-47), Welford's single-pass
update in source order: `n += 1`; `delta = point - mean`;
`mean += delta/n`; `M2 += delta*(point - mean)` (the second factor uses
the already-updated mean); `variance = M2/(n-1)`; finally an assert
fires if the new variance is exactly zero.  The two divisions raise
`ZeroDivisionError` in Python when their denominator is zero, so the
model guards them explicitly (`ℚ` division by zero would silently
return 0). -/
def Gaus1D.update (g : Gaus1D) (point : ℚ) : Except Err Gaus1D :=
  let n' := g.n + 1
  if n' = 0 then .error .zeroDivisionError
  else
    let delta := point - g.mean
    let mean' := g.mean + delta / n'
    let M2' := g.M2 + delta * (point - mean')
    if n' - 1 = 0 then .error .zeroDivisionError
    else
      let variance' := M2' / (n' - 1)
      if variance' = 0 then .error .assertionError
      else .ok ⟨mean', variance', n', M2'⟩

/-- `Gaus1D.copy` (gaus_1D.py line 49-50): `copy.deepcopy`.  Under the
value semantics of the embedding a deep copy is the identity. -/
def Gaus1D.copy (g : Gaus1D) : Gaus1D := g

/-- Result state of `Gaus1D.__mul__`: a copy of the left operand whose
`mean` and `variance` are replaced and whose `M2` and `n` are set to
`None` (modelled as `Option` fields holding `none`). -/
structure Gaus1DFused where
  mean : ℚ
  variance : ℚ
  n : Option ℚ
  M2 : Option ℚ
  deriving DecidableEq, Repr

/-- `Gaus1D.__mul__` (gaus_1D.py lines 55-80): precision-weighted
fusion.  Raises `ValueError` if either variance is zero; computes
`variance_3 = (v1**-1 + v2**-1)**-1` and
`mean_3 = variance_3*v1**-1*m1 + variance_3*v2**-1*m2`; returns a copy
of `self` with the new mean/variance and `M2 = n = None`.  The outer
`**-1` raises `ZeroDivisionError` in Python when the precisions cancel
(possible with one negative variance), hence the explicit guard. -/
def Gaus1D.mul (self g2 : Gaus1D) : Except Err Gaus1DFused :=
  if self.variance = 0 ∨ g2.variance = 0 then .error .valueError
  else
    let precSum := self.variance⁻¹ + g2.variance⁻¹
    if precSum = 0 then .error .zeroDivisionError
    else
      let variance_3 := precSum⁻¹
      let mean_3 := variance_3 * self.variance⁻¹ * self.mean
        + variance_3 * g2.variance⁻¹ * g2.mean
      .ok ⟨mean_3, variance_3, none, none⟩

/-- `Gaus1D.KL_Div` (gaus_1D.py lines 85-107):
`log(sig_2/sig_1) + (sig_1**2 + (mu_1-mu_2)**2)/(2*sig_2**2) - 0.5`
with `sig_i = variance_i ** 0.5`.  `x ** 0.5` agrees with `Real.sqrt`
for `x ≥ 0`; the claims only use the function on positive variances,
where the Python expression is defined. -/
noncomputable def Gaus1D.KL_Div (self g2 : Gaus1D) : ℝ :=
  let sig_1 := Real.sqrt (self.variance : ℝ)
  let sig_2 := Real.sqrt (g2.variance : ℝ)
  Real.log (sig_2 / sig_1)
    + (sig_1 ^ 2 + ((self.mean : ℝ) - (g2.mean : ℝ)) ^ 2) / (2 * sig_2 ^ 2) - 0.5

/-- A parsed JSON value (result of `json.loads`).  Arrays are not
needed by either decoder and are omitted. -/
inductive JVal where
  | num (q : ℚ)
  | str (s : String)
  | bool (b : Bool)
  | null
  | obj (fields : List (String × JVal))

/-- Python `obj[key]` on a parsed JSON value: a lookup on a dict, and a
`TypeError`/failure on anything else.  Returns `none` both for a
missing key and for a non-dict receiver; the decoders distinguish the
two where the raised exception kind differs. -/
def JVal.get (j : JVal) (key : String) : Option JVal :=
  match j with
  | .obj fields => fields.lookup key
  | _ => none

/-- Digit-string evaluation, accumulator style: the numeric value of a
run of decimal digits, or `none` on any non-digit character. -/
def digitsValAux : ℕ → List Char → Option ℕ
  | acc, [] => some acc
  | acc, c :: rest =>
    if c.isDigit then digitsValAux (10 * acc + (c.toNat - 48)) rest else none

/-- The numeric value of a non-empty decimal digit string. -/
def digitsVal : List Char → Option ℕ
  | [] => none
  | l => digitsValAux 0 l

/-- Python `int(s)` on a string: an optional sign followed by decimal
digits; anything else raises `ValueError`. -/
def pyInt (s : String) : Option ℤ :=
  match s.data with
  | '-' :: rest => (digitsVal rest).map (fun n => -(n : ℤ))
  | '+' :: rest => (digitsVal rest).map (fun n => (n : ℤ))
  | l => (digitsVal l).map (fun n => (n : ℤ))

/-- Python `float(v)` on a JSON value: numbers pass through, booleans
become 0/1, and everything else raises.  Of the strings Python would
accept, only integer literals are modelled (the decoders' claims only
depend on clearly non-numeric values, where `float` raises). -/
def pyFloat (v : JVal) : Option ℚ :=
  match v with
  | .num q => some q
  | .bool b => some (bif b then 1 else 0)
  | .str s => (pyInt s).map (fun i => (i : ℚ))
  | _ => none

/-- `gaus_1D_from_json` (gaus_1D.py lines 109-121).  The whole body is
wrapped in `try: ... except: raise ValueError(...)`, so any failure
(missing key, non-float-convertible value) surfaces as `ValueError`.
The fields `mean`, `variance`, `M2`, `n` are read through `float(...)`;
`dist_type` is read through `str(...)`, which never fails, so only its
presence matters (its value is not part of the modelled state). -/
def gaus_1D_from_json (j : JVal) : Except Err Gaus1D :=
  match (j.get "mean").bind pyFloat, (j.get "variance").bind pyFloat,
        (j.get "M2").bind pyFloat, (j.get "n").bind pyFloat,
        j.get "dist_type" with
  | some mean, some variance, some M2, some n, some _ =>
      .ok ⟨mean, variance, n, M2⟩
  | _, _, _, _, _ => .error .valueError

/-- A class reference accepted by `Multinomial`'s label-resolving
operations: a raw integer index or a string label. -/
inductive Ref where
  | int (i : ℤ)
  | str (s : String)
  deriving DecidableEq, Repr

/-- State of `Multinomial` (`multinomial.py`).  The dicts `_n` (counts,
`None` after a multiply) and `_p` (probabilities), keyed in the source
by the integers `0 .. size-1`, are modelled positionally; `labels` maps
string keys to integer class indices (`relabel` rejects non-string
keys, and integer keys never resolve, so string keys suffice).  The
constant `dist_type` class-name string is omitted as for `Gaus1D`. -/
structure Multinomial where
  size : ℕ
  counts : List (Option ℚ)
  probs : List ℚ
  labeled : Bool
  labels : List (String × ℤ)
  deriving DecidableEq, Repr

/-- Python dict read `d[k]` on a dict keyed `0 .. length-1`, as an
`Option`: fails (KeyError) outside that range. -/
def dget {α : Type} (l : List α) (k : ℤ) : Option α :=
  if 0 ≤ k then l.get? k.toNat else none

/-- Python dict write `d[k] = v` on a dict keyed `0 .. length-1`.  All
modelled call sites write within that range; a genuinely fresh key
(which Python would append) does not arise there, so out-of-range
writes are modelled as no-ops. -/
def dset {α : Type} (l : List α) (k : ℤ) (v : α) : List α :=
  if 0 ≤ k then l.set k.toNat v else l

/-- `sum(...)` over count values: raises `TypeError` (here: `none`) as
soon as a `None` count participates. -/
def allSome : List (Option ℚ) → Option (List ℚ)
  | [] => some []
  | none :: _ => none
  | some c :: rest => (allSome rest).map (fun cs => c :: cs)

/-- `Multinomial.__init__` (multinomial.py lines 6-38).  The guard
`if not isinstance(size,int) or size < 1:` raises by formatting
`self.dist_type` — an attribute that is assigned only *after* the
guard — so the exception actually raised is `AttributeError`, not the
intended `ValueError`.  A valid size seeds `_n[i] = prior_strength`
and `_p[i] = 1/size`, with no labels. -/
def Multinomial.init (size : ℤ) (prior_strength : ℚ := 1) : Except Err Multinomial :=
  if size < 1 then .error .attributeError
  else .ok ⟨size.toNat, List.replicate size.toNat (some prior_strength),
            List.replicate size.toNat (1 / (size : ℚ)), false, []⟩

/-- `Multinomial.copy` (multinomial.py line 155-156): `copy.deepcopy`,
the identity under value semantics. -/
def Multinomial.copy (m : Multinomial) : Multinomial := m

/-- The validation loop of `relabel` (multinomial.py lines 62-69): each
pair must map a fresh string key to a fresh integer in
`range(size)`. -/
def relabelCheck (size : ℕ) : List (String × ℤ) → List String → List ℤ → Bool
  | [], _, _ => true
  | (k, v) :: rest, seenKeys, seenVals =>
    if v < 0 ∨ (size : ℤ) ≤ v ∨ k ∈ seenKeys ∨ v ∈ seenVals then false
    else relabelCheck size rest (k :: seenKeys) (v :: seenVals)

/-- `Multinomial.relabel` (multinomial.py lines 53-71): checks the map
has exactly `size` entries and is a bijection onto `range(size)`, then
installs it and sets `labeled = True`.  The source never consults the
`labeled` flag here: a second valid call succeeds and replaces the
previous labelling. -/
def Multinomial.relabel (self : Multinomial) (labels : List (String × ℤ)) : Except Err Multinomial :=
  if labels.length ≠ self.size then .error .valueError
  else if relabelCheck self.size labels [] [] = false then .error .valueError
  else .ok { self with labels := labels, labeled := true }

/-- `Multinomial._label_to_index` (multinomial.py lines 73-84).  When
labeled, `self.labels[i]` is tried; on failure the source *constructs*
`KeyError(...)` without raising it, so the reference passes through
unchanged.  The final `if lookup_i not in range(self.size):` on line 83
has no body (a `SyntaxError` in the source file); the dangling check is
modelled as a branch with no effect, matching every other fall-through
in this function.  The function therefore never fails. -/
def Multinomial.label_to_index (self : Multinomial) (i : Ref) : Ref :=
  if self.labeled = true then
    match i with
    | .str s =>
      match self.labels.lookup s with
      | some v => .int v
      | none => i
    | .int _ => i
  else i

/-- `Multinomial._set_n` (multinomial.py lines 94-101): resolves the
reference and writes the count dict.  A string reference (which would
add a string key to `_n` — unreachable from the modelled call sites,
which always pass integers in `range(size)`) is modelled as a no-op. -/
def Multinomial.set_n (self : Multinomial) (i : Ref) (n : Option ℚ) : Multinomial :=
  match self.label_to_index i with
  | .int idx => { self with counts := dset self.counts idx n }
  | .str _ => self

/-- `Multinomial.get_p` (multinomial.py lines 117-122): resolves the
reference and reads `self._p[index]`; a reference that resolves to a
missing key raises `KeyError`. -/
def Multinomial.get_p (self : Multinomial) (class_label : Ref) : Except Err ℚ :=
  match self.label_to_index class_label with
  | .int idx =>
    match dget self.probs idx with
    | some p => .ok p
    | none => .error .keyError
  | .str _ => .error .keyError

/-- The guarded increment `self._n[index] += weight` of
`Multinomial.update`: any failure (string index, missing key, `None`
count) is printed and swallowed, leaving the counts unchanged. -/
def Multinomial.updCounts (self : Multinomial) (index : Ref) (weight : ℚ) : List (Option ℚ) :=
  match index with
  | .int idx =>
    match dget self.counts idx with
    | some (some c) => dset self.counts idx (some (c + weight))
    | _ => self.counts
  | .str _ => self.counts

/-- `Multinomial.update` (multinomial.py lines 158-172).  The increment
`self._n[index] += weight` sits in a `try/except` whose handler only
prints, so a bad reference (unknown label, out-of-range index) or a
`None` count is silently swallowed and the counts stay unchanged.  Then
`total = sum(self._n.values())` raises `TypeError` if any count is
`None`, and the renormalising comprehension raises `ZeroDivisionError`
if `total == 0` and there is at least one class; otherwise
`_p[k] = _n[k]/total` for every key. -/
def Multinomial.update (self : Multinomial) (class_label : Ref) (weight : ℚ := 1) : Except Err Multinomial :=
  let counts' := self.updCounts (self.label_to_index class_label) weight
  match allSome counts' with
  | none => .error .typeError
  | some cs =>
    let total := cs.sum
    if total = 0 ∧ cs ≠ [] then .error .zeroDivisionError
    else .ok { self with counts := counts', probs := cs.map (fun c => c / total) }

/-- One iteration of the `for i in range(self.size)` loop of
`Multinomial.__mul__`: `b_new._p[i] = self.get_p(i) * b1.get_p(i)`
followed by `b_new._set_n(i, None)`. -/
def Multinomial.mulStep (self b1 b : Multinomial) (i : ℕ) : Except Err Multinomial := do
  let p1 ← self.get_p (.int (i : ℤ))
  let p2 ← b1.get_p (.int (i : ℤ))
  pure (({ b with probs := dset b.probs (i : ℤ) (p1 * p2) }).set_n (.int (i : ℤ)) none)

/-- `Multinomial.__mul__` (multinomial.py lines 131-150): requires equal
sizes (`ValueError` otherwise); starts from a deep copy of `self`; for
each `i in range(size)` sets `_p[i]` to the product of the operands'
probabilities (a missing probability key raises `KeyError` via
`get_p`) and the count to `None`; finally renormalises `_p` by its sum
(`ZeroDivisionError` when the sum is zero and the dict is
non-empty). -/
def Multinomial.mul (self b1 : Multinomial) : Except Err Multinomial :=
  if self.size ≠ b1.size then .error .valueError
  else do
    let b_new ← (List.range self.size).foldlM (self.mulStep b1) self.copy
    let norm := b_new.probs.sum
    if norm = 0 ∧ b_new.probs ≠ [] then .error .zeroDivisionError
    else .ok { b_new with probs := b_new.probs.map (fun p => p / norm) }

/-- One iteration of the `for i in range(self.size)` loop of
`Multinomial.KL_Div`: `KL += p * math.log(p/q)` with `p`, `q` read
through `get_p`.  `p/q` raises `ZeroDivisionError` when `q == 0` and
`math.log` raises `ValueError` (domain error) on a non-positive
argument. -/
noncomputable def Multinomial.klStep (self m1 : Multinomial) (KL : ℝ) (i : ℕ) :
    Except Err ℝ := do
  let p ← self.get_p (.int (i : ℤ))
  let q ← m1.get_p (.int (i : ℤ))
  if q = 0 then .error .zeroDivisionError
  else if p / q ≤ 0 then .error .valueError
  else pure (KL + (p : ℝ) * Real.log ((p : ℝ) / (q : ℝ)))

/-- `Multinomial.KL_Div` (multinomial.py lines 177-191): requires equal
sizes, then accumulates `p * log(p/q)` over `i in range(size)` reading
both distributions through `get_p`. -/
noncomputable def Multinomial.KL_Div (self m1 : Multinomial) : Except Err ℝ :=
  if self.size ≠ m1.size then .error .valueError
  else (List.range self.size).foldlM (self.klStep m1) (0 : ℝ)

/-- Result of `multinomial_from_json`: the decoder overwrites every
field of a fresh `Multinomial(1,1)` with raw JSON values, converting
only the keys of `_n`/`_p` (via `int(k)`); the values and the remaining
fields are stored exactly as decoded, so they are kept as raw `JVal`s
here. -/
structure MultinomialDec where
  counts : List (ℤ × JVal)
  probs : List (ℤ × JVal)
  size : JVal
  labeled : JVal
  labels : JVal
  dist_type : JVal

/-- Python `obj[key]` in the multinomial decoder, where no `try` block
surrounds it: a missing key raises `KeyError` and a non-dict receiver
raises `TypeError`, both uncaught. -/
def expectKey (j : JVal) (key : String) : Except Err JVal :=
  match j with
  | .obj fields =>
    match fields.lookup key with
    | some v => .ok v
    | none => .error .keyError
  | _ => .error .typeError

/-- `{int(k): v for k, v in d.items()}` (multinomial.py lines 214-215):
requires a dict (`AttributeError` on `.items()` otherwise) and integer-
literal string keys (`int(k)` raises `ValueError` otherwise); the
values are kept unconverted. -/
def decodeIntKeyed (v : JVal) : Except Err (List (ℤ × JVal)) :=
  match v with
  | .obj fields =>
    fields.foldrM
      (fun kv acc =>
        match pyInt kv.1 with
        | some i => .ok ((i, kv.2) :: acc)
        | none => .error .valueError)
      []
  | _ => .error .attributeError

/-- `multinomial_from_json` (multinomial.py lines 211-220): reads, in
source order, `_n` and `_p` (through the int-keying comprehension) and
then `size`, `labeled`, `labels`, `dist_type` raw.  There is no
`try/except` and no numeric validation of any value: only missing keys,
non-dict `_n`/`_p`, and non-integer keys inside them fail. -/
def multinomial_from_json (j : JVal) : Except Err MultinomialDec := do
  let nRaw ← expectKey j "_n"
  let counts ← decodeIntKeyed nRaw
  let pRaw ← expectKey j "_p"
  let probs ← decodeIntKeyed pRaw
  let size ← expectKey j "size"
  let labeled ← expectKey j "labeled"
  let labels ← expectKey j "labels"
  let dist_type ← expectKey j "dist_type"
  pure ⟨counts, probs, size, labeled, labels, dist_type⟩

/-! ## Helper lemmas -/

lemma allSome_eq_map : ∀ (l : List (Option ℚ)) (cs : List ℚ), allSome l = some cs → l = cs.map some
  | [], cs, h => by
    simp only [allSome, Option.some.injEq] at h
    rw [← h]
    rfl
  | none :: tl, cs, h => by
    rw [show allSome (none :: tl) = none from rfl] at h
    exact Option.noConfusion h
  | some c :: tl, cs, h => by
    unfold allSome at h
    cases hall : allSome tl with
    | none => rw [hall] at h; simp at h
    | some a =>
      rw [hall] at h
      simp only [Option.map_some', Option.some.injEq] at h
      rw [← h]
      simp [allSome_eq_map tl a hall]

lemma dset_length {α : Type} (l : List α) (k : ℤ) (v : α) : (dset l k v).length = l.length := by
  unfold dset
  split
  · simp
  · rfl

lemma updCounts_length (self : Multinomial) (i : Ref) (w : ℚ) :
    (self.updCounts i w).length = self.counts.length := by
  unfold Multinomial.updCounts
  cases i with
  | int idx =>
    cases h : dget self.counts idx with
    | none => simp [h]
    | some o =>
      cases o with
      | none => simp [h]
      | some c => simp [h, dset_length]
  | str s => rfl

lemma sum_map_div (cs : List ℚ) (t : ℚ) : (cs.map (fun c => c / t)).sum = cs.sum / t := by
  induction cs with
  | nil => simp
  | cons c cs ih => simp [ih, add_div]

lemma label_to_index_int (m : Multinomial) (i : ℤ) : m.label_to_index (.int i) = .int i := by
  unfold Multinomial.label_to_index
  by_cases h : m.labeled = true <;> simp [h]

lemma dget_nat {α : Type} (l : List α) (i : ℕ) : dget l (i : ℤ) = l.get? i := by
  unfold dget
  rw [if_pos (Int.natCast_nonneg i)]
  norm_num

lemma get?_eq_some_getD {α : Type} (l : List α) (d : α) :
    ∀ i, i < l.length → l.get? i = some (l.getD i d) := by
  induction l with
  | nil => intro i h; simp at h
  | cons a l ih =>
    intro i h
    cases i with
    | zero => rfl
    | succ j => simpa using ih j (by simpa using h)

lemma set_get? {α : Type} : ∀ (l : List α) (k j : ℕ) (v : α),
    (l.set k v).get? j = if j = k ∧ k < l.length then some v else l.get? j
  | [], k, j, v => by simp
  | a :: l, 0, 0, v => by simp
  | a :: l, 0, j+1, v => by simp
  | a :: l, k+1, 0, v => by simp
  | a :: l, k+1, j+1, v => by
    have h1 : (a :: l).set (k+1) v = a :: l.set k v := rfl
    rw [h1, List.get?_cons_succ, List.get?_cons_succ, set_get? l k j v]
    by_cases hj : j = k
    · by_cases hk : k < l.length
      · rw [if_pos ⟨hj, hk⟩, if_pos ⟨by omega, by simp [List.length_cons]; omega⟩]
      · rw [if_neg (fun hh => hk hh.2), if_neg (by simp [List.length_cons]; omega)]
    · rw [if_neg (fun hh => hj hh.1), if_neg (by omega)]

lemma dset_get? {α : Type} (l : List α) (k : ℕ) (v : α) (j : ℕ) :
    (dset l (k : ℤ) v).get? j = if j = k ∧ k < l.length then some v else l.get? j := by
  unfold dset
  rw [if_pos (Int.natCast_nonneg k)]
  have hk : ((k : ℤ)).toNat = k := Int.toNat_natCast k
  rw [hk]
  exact set_get? l k j v

lemma get_p_int (m : Multinomial) (i : ℕ) (h : i < m.probs.length) :
    m.get_p (.int (i : ℤ)) = .ok (m.probs.getD i 0) := by
  unfold Multinomial.get_p
  rw [label_to_index_int]
  simp only [dget_nat]
  rw [get?_eq_some_getD m.probs 0 i h]

lemma mulStep_ok (a b1 b : Multinomial) (i : ℕ)
    (hia : i < a.probs.length) (hib : i < b1.probs.length) :
    a.mulStep b1 b i = .ok ⟨b.size, dset b.counts (i : ℤ) none,
      dset b.probs (i : ℤ) (a.probs.getD i 0 * b1.probs.getD i 0), b.labeled, b.labels⟩ := by
  unfold Multinomial.mulStep
  rw [get_p_int a i hia, get_p_int b1 i hib]
  simp [Bind.bind, Except.bind, pure, Except.pure, Multinomial.set_n, label_to_index_int]

lemma mulStep_fields (a b1 b : Multinomial) (i : ℕ) (b' : Multinomial)
    (h : a.mulStep b1 b i = .ok b') :
    b'.labeled = b.labeled ∧ b'.labels = b.labels ∧ b'.size = b.size := by
  unfold Multinomial.mulStep at h
  cases h1 : a.get_p (.int (i : ℤ)) with
  | error e => rw [h1] at h; simp [Bind.bind, Except.bind] at h
  | ok p1 =>
    rw [h1] at h
    cases h2 : b1.get_p (.int (i : ℤ)) with
    | error e => rw [h2] at h; simp [Bind.bind, Except.bind] at h
    | ok p2 =>
      rw [h2] at h
      simp only [Bind.bind, Except.bind, pure, Except.pure] at h
      injection h with h'
      rw [← h']
      simp [Multinomial.set_n, label_to_index_int]

lemma foldlM_mulStep_fields (a b1 : Multinomial) :
    ∀ (l : List ℕ) (b c : Multinomial), List.foldlM (a.mulStep b1) b l = .ok c →
      c.labeled = b.labeled ∧ c.labels = b.labels ∧ c.size = b.size
  | [], b, c, h => by
    simp only [List.foldlM_nil, pure, Except.pure] at h
    injection h with h'
    rw [← h']
    exact ⟨rfl, rfl, rfl⟩
  | i :: l, b, c, h => by
    rw [List.foldlM_cons] at h
    cases hstep : a.mulStep b1 b i with
    | error e => rw [hstep] at h; simp [Bind.bind, Except.bind] at h
    | ok b' =>
      rw [hstep] at h
      simp only [Bind.bind, Except.bind] at h
      have h1 := foldlM_mulStep_fields a b1 l b' c h
      have h2 := mulStep_fields a b1 b i b' hstep
      exact ⟨h1.1.trans h2.1, h1.2.1.trans h2.2.1, h1.2.2.trans h2.2.2⟩

lemma mul_fold (a b1 : Multinomial) (han : a.counts.length = a.size)
    (hap : a.probs.length = a.size)
    (hbp : b1.probs.length = b1.size) (hs : a.size = b1.size) :
    ∀ k, k ≤ a.size →
    ∃ b, List.foldlM (a.mulStep b1) a.copy (List.range k) = .ok b ∧
      b.size = a.size ∧ b.labeled = a.labeled ∧ b.labels = a.labels ∧
      b.probs.length = a.probs.length ∧ b.counts.length = a.counts.length ∧
      (∀ j : ℕ, b.probs.get? j =
        if j < k then some (a.probs.getD j 0 * b1.probs.getD j 0) else a.probs.get? j) ∧
      (∀ j : ℕ, b.counts.get? j = if j < k then some none else a.counts.get? j) := by
  intro k
  induction k with
  | zero =>
    intro _
    refine ⟨a.copy, by rfl, rfl, rfl, rfl, rfl, rfl,
      fun j => by simp [Multinomial.copy], fun j => by simp [Multinomial.copy]⟩
  | succ k ih =>
    intro hk1
    obtain ⟨b, hfold, hsize, hlab, hlabs, hlp, hlc, hp, hc⟩ := ih (Nat.le_of_succ_le hk1)
    have hka : k < a.probs.length := by rw [hap]; exact Nat.lt_of_succ_le hk1
    have hkb : k < b1.probs.length := by rw [hbp, ← hs]; exact Nat.lt_of_succ_le hk1
    have hkbp : k < b.probs.length := by rw [hlp]; exact hka
    have hkbc : k < b.counts.length := by rw [hlc, han]; exact Nat.lt_of_succ_le hk1
    refine ⟨⟨b.size, dset b.counts (k : ℤ) none,
      dset b.probs (k : ℤ) (a.probs.getD k 0 * b1.probs.getD k 0), b.labeled, b.labels⟩,
      ?_, hsize, hlab, hlabs, ?_, ?_, ?_, ?_⟩
    · rw [List.range_succ, List.foldlM_append, hfold]
      simp only [Bind.bind, Except.bind]
      rw [List.foldlM_cons, mulStep_ok a b1 b k hka hkb]
      simp [List.foldlM_nil, Bind.bind, Except.bind, pure, Except.pure]
    · simp [dset_length, hlp]
    · simp [dset_length, hlc]
    · intro j
      rw [dset_get? b.probs k _ j]
      by_cases hj : j = k
      · rw [if_pos ⟨hj, hkbp⟩, if_pos (by omega), hj]
      · rw [if_neg (fun hh => hj hh.1), hp j]
        by_cases hjk : j < k
        · rw [if_pos hjk, if_pos (by omega)]
        · rw [if_neg hjk, if_neg (by omega)]
    · intro j
      rw [dset_get? b.counts k _ j]
      by_cases hj : j = k
      · rw [if_pos ⟨hj, hkbc⟩, if_pos (by omega)]
      · rw [if_neg (fun hh => hj hh.1), hc j]
        by_cases hjk : j < k
        · rw [if_pos hjk, if_pos (by omega)]
        · rw [if_neg hjk, if_neg (by omega)]

/-- Closed form of `Multinomial.__mul__` on well-formed states (counts
and probability dicts keyed exactly by `0 .. size-1`). -/
lemma mul_eq (a b1 : Multinomial) (han : a.counts.length = a.size)
    (hap : a.probs.length = a.size) (hbp : b1.probs.length = b1.size) (hs : a.size = b1.size) :
    a.mul b1 =
      if ((List.range a.size).map fun i => a.probs.getD i 0 * b1.probs.getD i 0).sum = 0 ∧
          a.size ≠ 0
      then .error .zeroDivisionError
      else .ok ⟨a.size, List.replicate a.size none,
        ((List.range a.size).map fun i => a.probs.getD i 0 * b1.probs.getD i 0).map
          (fun p =>
            p / ((List.range a.size).map fun i => a.probs.getD i 0 * b1.probs.getD i 0).sum),
        a.labeled, a.labels⟩ := by
  obtain ⟨b, hfold, hsize, hlab, hlabs, hlp, hlc, hp, hc⟩ :=
    mul_fold a b1 han hap hbp hs a.size le_rfl
  have hbprobs : b.probs = (List.range a.size).map fun i => a.probs.getD i 0 * b1.probs.getD i 0 := by
    apply List.ext_get?
    intro j
    rw [hp j]
    by_cases hj : j < a.size
    · rw [if_pos hj, List.get?_map, List.get?_range hj]
      rfl
    · rw [if_neg hj, List.get?_eq_none.mpr (by rw [hap]; omega),
        List.get?_eq_none.mpr (by simp; omega)]
  have hbcounts : b.counts = List.replicate a.size none := by
    apply List.eq_replicate_iff.mpr
    refine ⟨by rw [hlc, han], ?_⟩
    intro x hx
    obtain ⟨j, hj⟩ := List.mem_iff_get?.mp hx
    have hjl : j < b.counts.length := by
      by_contra hcon
      rw [List.get?_eq_none.mpr (by omega)] at hj
      exact Option.noConfusion hj
    rw [hc j] at hj
    rw [hlc, han] at hjl
    rw [if_pos hjl] at hj
    injection hj with hj'
    rw [← hj']
  unfold Multinomial.mul
  rw [if_neg (not_not_intro hs), hfold]
  simp only [Bind.bind, Except.bind]
  rw [hbprobs, hbcounts, hsize, hlab, hlabs]
  have hPne : (((List.range a.size).map fun i => a.probs.getD i 0 * b1.probs.getD i 0) ≠ []) ↔
      a.size ≠ 0 := by simp
  by_cases hcond :
      ((List.range a.size).map fun i => a.probs.getD i 0 * b1.probs.getD i 0).sum = 0 ∧
        a.size ≠ 0
  · rw [if_pos ⟨hcond.1, hPne.mpr hcond.2⟩, if_pos hcond]
  · rw [if_neg (fun hh => hcond ⟨hh.1, hPne.mp hh.2⟩), if_neg hcond]

/-! ## Claim theorems -/

/-- C1: `Gaus1D.update` performs Welford's single-pass update in the
specified order — `n += 1`; `delta = point - mean`; `mean += delta/n`;
`M2 += delta * (point - updated mean)`; `variance = M2/(n-1)` — for
every state on which the Python divisions and the final
zero-variance assert do not fire.  The end-to-end instance of the
claim (`mean=2, variance=4, priorStrength=2`, `update(3)` giving
`n=3`, `mean=7/3`, `variance=7/3`) is the witness. -/
theorem C1_welford_update (g : Gaus1D) (p : ℚ)
    (h1 : g.n + 1 ≠ 0) (h2 : g.n + 1 - 1 ≠ 0)
    (h3 : (g.M2 + (p - g.mean) * (p - (g.mean + (p - g.mean) / (g.n + 1)))) / (g.n + 1 - 1) ≠ 0) :
    g.update p = .ok
      ⟨g.mean + (p - g.mean) / (g.n + 1),
       (g.M2 + (p - g.mean) * (p - (g.mean + (p - g.mean) / (g.n + 1)))) / (g.n + 1 - 1),
       g.n + 1,
       g.M2 + (p - g.mean) * (p - (g.mean + (p - g.mean) / (g.n + 1)))⟩ := by
  simp only [Gaus1D.update]
  rw [if_neg h1, if_neg h2, if_neg h3]

/-- Witness for C1: the claim's end-to-end example.  Starting from
`mean=2, variance=4, priorStrength=2` (so `n=2`, `M2=4`), `update(3.0)`
yields `n=3`, `mean=7/3` and the Welford reference variance
`(4 + 1*(3-7/3))/2 = 7/3`. -/
theorem C1_welford_update_witness :
    Gaus1D.update ⟨2, 4, 2, 4⟩ 3 = .ok ⟨7/3, 7/3, 3, 14/3⟩ := by
  have h := C1_welford_update ⟨2, 4, 2, 4⟩ 3 (by norm_num) (by norm_num) (by norm_num)
  rw [h]
  norm_num

/-- C2 (amended): the `Gaus1D` variance is *nonzero*, not strictly
positive: construction fails (by assert) exactly when the requested
variance is exactly zero or the prior strength is below 2 — a negative
variance is accepted and stored as given — and a successful update
always leaves a nonzero (possibly negative) variance, the
exactly-zero case being rejected by the final assert. -/
theorem C2_variance_nonzero_amended :
    (∀ (m v ps : ℚ), Gaus1D.init m v ps = .error .assertionError ↔ (v = 0 ∨ ps < 2)) ∧
    (∀ (m v ps : ℚ) (g : Gaus1D), Gaus1D.init m v ps = .ok g → g.variance = v) ∧
    (∀ (g : Gaus1D) (p : ℚ) (g' : Gaus1D), g.update p = .ok g' → g'.variance ≠ 0) := by
  refine ⟨?_, ?_, ?_⟩
  · intro m v ps
    unfold Gaus1D.init
    by_cases h0 : v = 0 <;> by_cases h2 : ps < 2 <;> simp [h0, h2]
  · intro m v ps g h
    unfold Gaus1D.init at h
    by_cases h0 : v = 0
    · rw [if_pos h0] at h; exact absurd h (by simp)
    · rw [if_neg h0] at h
      by_cases h2 : ps < 2
      · rw [if_pos h2] at h; exact absurd h (by simp)
      · rw [if_neg h2] at h
        injection h with h'
        rw [← h']
  · intro g p g' h
    simp only [Gaus1D.update] at h
    by_cases h1 : g.n + 1 = 0
    · rw [if_pos h1] at h; exact absurd h (by simp)
    · rw [if_neg h1] at h
      by_cases h2 : g.n + 1 - 1 = 0
      · rw [if_pos h2] at h; exact absurd h (by simp)
      · rw [if_neg h2] at h
        by_cases h3 : (g.M2 + (p - g.mean) * (p - (g.mean + (p - g.mean) / (g.n + 1)))) / (g.n + 1 - 1) = 0
        · rw [if_pos h3] at h; exact absurd h (by simp)
        · rw [if_neg h3] at h
          injection h with h'
          rw [← h']
          exact h3

/-- Witness for C2's amended theorem: construction with
`variance = 4, priorStrength = 2` does not hit the assert, stores the
requested variance, and the end-to-end update from the C1 example
leaves the nonzero variance `7/3`. -/
theorem C2_variance_nonzero_amended_witness :
    ¬((4 : ℚ) = 0 ∨ (2 : ℚ) < 2) ∧
    (Gaus1D.mk 2 4 2 4).variance = 4 ∧
    (Gaus1D.mk (7/3) (7/3) 3 (14/3)).variance ≠ 0 := by
  refine ⟨by norm_num, ?_, ?_⟩
  · exact C2_variance_nonzero_amended.2.1 2 4 2 ⟨2, 4, 2, 4⟩ (by norm_num [Gaus1D.init])
  · exact C2_variance_nonzero_amended.2.2 ⟨2, 4, 2, 4⟩ 3 ⟨7/3, 7/3, 3, 14/3⟩
      (by norm_num [Gaus1D.update])

/-- Counterexample to C2 as stated: the claim says construction with a
negative variance fails, but `Gaus1D.__init__` only asserts
`variance != 0`, so `Gaus1D(0.0, -1.0, 2)` succeeds and stores the
negative variance `-1` (with `M2 = -1`). -/
theorem C2_negative_variance_accepted :
    Gaus1D.init 0 (-1) 2 = .ok ⟨0, -1, 2, -1⟩ := by norm_num [Gaus1D.init]

/-- C3 (code bug): `relabel` never consults the `labeled` flag, so a
second valid `relabel` call on an already-labeled size-2 multinomial
does not fail — it succeeds and silently replaces the previous label
map, contradicting the source's own comment that "you have exactly one
chance to label data". -/
theorem C3_second_relabel_succeeds :
    Multinomial.init 2 1 = .ok ⟨2, [some 1, some 1], [1/2, 1/2], false, []⟩ ∧
    (Multinomial.mk 2 [some 1, some 1] [1/2, 1/2] false []).relabel [("a", 0), ("b", 1)] =
      .ok ⟨2, [some 1, some 1], [1/2, 1/2], true, [("a", 0), ("b", 1)]⟩ ∧
    (Multinomial.mk 2 [some 1, some 1] [1/2, 1/2] true [("a", 0), ("b", 1)]).relabel
        [("c", 0), ("d", 1)] =
      .ok ⟨2, [some 1, some 1], [1/2, 1/2], true, [("c", 0), ("d", 1)]⟩ := by
  refine ⟨?_, ?_, ?_⟩
  · norm_num [Multinomial.init, List.replicate, Int.toNat]
  · simp [Multinomial.relabel, relabelCheck]
  · simp [Multinomial.relabel, relabelCheck]

/-- C4 (code bug): class-reference errors are not raised at the point
of violation.  On a labeled size-2 multinomial, `_label_to_index`
passes an unknown label straight through (the `KeyError` on line 82 is
constructed but never raised, and the range check on line 83 has no
body — a `SyntaxError` in the source), and `update` swallows the
resulting indexing error in its bare `except:` clause: updating with
the unknown label `"zz"`, or with the out-of-range index `5`, returns
normally with the model unchanged instead of failing with
`UnknownLabel` / `IndexOutOfRange`. -/
theorem C4_bad_reference_swallowed :
    (Multinomial.mk 2 [some 1, some 1] [1/2, 1/2] true [("a", 0), ("b", 1)]).label_to_index
        (.str "zz") = .str "zz" ∧
    (Multinomial.mk 2 [some 1, some 1] [1/2, 1/2] true [("a", 0), ("b", 1)]).update
        (.str "zz") 1 =
      .ok (Multinomial.mk 2 [some 1, some 1] [1/2, 1/2] true [("a", 0), ("b", 1)]) ∧
    (Multinomial.mk 2 [some 1, some 1] [1/2, 1/2] true [("a", 0), ("b", 1)]).update
        (.int 5) 1 =
      .ok (Multinomial.mk 2 [some 1, some 1] [1/2, 1/2] true [("a", 0), ("b", 1)]) := by
  refine ⟨?_, ?_, ?_⟩
  · simp [Multinomial.label_to_index, List.lookup]
  · simp [Multinomial.update, Multinomial.updCounts, Multinomial.label_to_index, allSome,
      dget, List.lookup]
    norm_num
  · simp [Multinomial.update, Multinomial.updCounts, Multinomial.label_to_index, allSome,
      dget, List.lookup]
    norm_num

/-- C8 (code bug): an invalid size does make `Multinomial.__init__`
fail, but with `AttributeError`, not the intended
`ValueError`/`InvalidParameter`: the raise statement formats
`self.dist_type` before that attribute is ever assigned.  A valid size
seeds `counts[i] = priorStrength` and `probabilities[i] = 1/size`, as
the claim states (here at `size = 2`, `priorStrength = 1`). -/
theorem C8_init_attribute_error :
    Multinomial.init 0 1 = .error .attributeError ∧
    Multinomial.init (-3) 1 = .error .attributeError ∧
    Multinomial.init 2 1 = .ok ⟨2, [some 1, some 1], [1/2, 1/2], false, []⟩ := by
  refine ⟨?_, ?_, ?_⟩
  · norm_num [Multinomial.init]
  · norm_num [Multinomial.init]
  · norm_num [Multinomial.init, List.replicate, Int.toNat]

/-- C6: whenever `Multinomial.update` returns (on a model whose counts
dict is non-empty, which the data model's `size ≥ 1` invariant
guarantees), the new probabilities are exactly `counts[i]/sum(counts)`
positionally and therefore sum to 1. -/
theorem C6_update_normalizes (m : Multinomial) (r : Ref) (w : ℚ) (m' : Multinomial)
    (hne : m.counts ≠ []) (h : m.update r w = .ok m') :
    m'.probs.sum = 1 ∧
    ∃ cs : List ℚ, m'.counts = cs.map some ∧ cs.sum ≠ 0 ∧
      m'.probs = cs.map (fun c => c / cs.sum) := by
  simp only [Multinomial.update] at h
  split at h
  · exact absurd h (by simp)
  · rename_i cs hall
    have hmap := allSome_eq_map _ _ hall
    have hcsne : cs ≠ [] := by
      intro hnil
      rw [hnil] at hmap
      have h0 : (m.updCounts (m.label_to_index r) w).length = 0 := by rw [hmap]; rfl
      rw [updCounts_length] at h0
      exact hne (List.length_eq_zero.mp h0)
    split at h
    · exact absurd h (by simp)
    · rename_i hcond
      have hz : cs.sum ≠ 0 := fun h0 => hcond ⟨h0, hcsne⟩
      injection h with h'
      rw [← h']
      refine ⟨?_, cs, hmap, hz, rfl⟩
      rw [sum_map_div]
      exact div_self hz

/-- Witness for C6: updating class 0 of a fresh size-2 multinomial
(counts `[1,1]`) gives counts `[2,1]` and probabilities `[2/3, 1/3]`,
which sum to 1. -/
theorem C6_update_normalizes_witness :
    (Multinomial.mk 2 [some 2, some 1] [2/3, 1/3] false []).probs.sum = 1 :=
  (C6_update_normalizes ⟨2, [some 1, some 1], [1/2, 1/2], false, []⟩ (.int 0) 1
    ⟨2, [some 2, some 1], [2/3, 1/3], false, []⟩ (by simp)
    (by
      simp [Multinomial.update, Multinomial.updCounts, Multinomial.label_to_index, allSome,
        dget, dset]
      norm_num)).1

/-- C5: fusion is commutative for both families over exact arithmetic.
For Gaussians with positive variances the two fused results are equal
as whole objects (same mean, same variance, both with `n = M2 = None`);
for equal-size well-formed multinomials the two products carry the same
probability vector (the full objects differ: each inherits its *left*
operand's labels, see C10). -/
theorem C5_fusion_commutative :
    (∀ a b : Gaus1D, 0 < a.variance → 0 < b.variance → a.mul b = b.mul a) ∧
    (∀ a b : Multinomial, a.counts.length = a.size → a.probs.length = a.size →
      b.counts.length = b.size → b.probs.length = b.size → a.size = b.size →
      Except.map Multinomial.probs (a.mul b) = Except.map Multinomial.probs (b.mul a)) := by
  constructor
  · intro a b ha hb
    have ha' := ne_of_gt ha
    have hb' := ne_of_gt hb
    have hps : a.variance⁻¹ + b.variance⁻¹ ≠ 0 := ne_of_gt (by positivity)
    have hps' : b.variance⁻¹ + a.variance⁻¹ ≠ 0 := by rw [add_comm]; exact hps
    simp only [Gaus1D.mul]
    rw [if_neg (show ¬(a.variance = 0 ∨ b.variance = 0) by push_neg; exact ⟨ha', hb'⟩)]
    rw [if_neg (show ¬(b.variance = 0 ∨ a.variance = 0) by push_neg; exact ⟨hb', ha'⟩)]
    rw [if_neg hps, if_neg hps']
    simp only [Except.ok.injEq, Gaus1DFused.mk.injEq, and_true]
    constructor
    · rw [add_comm b.variance⁻¹ a.variance⁻¹]
      exact add_comm _ _
    · rw [add_comm b.variance⁻¹ a.variance⁻¹]
  · intro a b han hap hbn hbp hs
    rw [mul_eq a b han hap hbp hs, mul_eq b a hbn hbp hap hs.symm]
    have hfun : (fun i => b.probs.getD i 0 * a.probs.getD i 0) =
        (fun i => a.probs.getD i 0 * b.probs.getD i 0) := by
      funext i
      exact mul_comm _ _
    rw [hfun, ← hs]
    by_cases hcond :
        ((List.range a.size).map fun i => a.probs.getD i 0 * b.probs.getD i 0).sum = 0 ∧
          a.size ≠ 0
    · rw [if_pos hcond, if_pos hcond]
    · rw [if_neg hcond, if_neg hcond]
      rfl

/-- Witness for C5: a concrete Gaussian pair and a concrete multinomial
pair (with different labels on the two operands) fused in both
orders. -/
theorem C5_fusion_commutative_witness :
    Gaus1D.mul ⟨2, 4, 2, 4⟩ ⟨3, 2, 5, 8⟩ = Gaus1D.mul ⟨3, 2, 5, 8⟩ ⟨2, 4, 2, 4⟩ ∧
    Except.map Multinomial.probs
        ((Multinomial.mk 2 [some 1, some 3] [1/4, 3/4] false []).mul
          ⟨2, [some 1, some 1], [1/3, 2/3], true, [("x", 0), ("y", 1)]⟩) =
      Except.map Multinomial.probs
        ((Multinomial.mk 2 [some 1, some 1] [1/3, 2/3] true [("x", 0), ("y", 1)]).mul
          ⟨2, [some 1, some 3], [1/4, 3/4], false, []⟩) :=
  ⟨C5_fusion_commutative.1 _ _ (by norm_num) (by norm_num),
   C5_fusion_commutative.2 _ _ (by rfl) (by rfl) (by rfl) (by rfl) (by rfl)⟩

/-- C10: whatever `Multinomial.__mul__` returns is a deep copy seeded
from the *left* operand: it keeps the left operand's `labeled` flag,
its `labels` mapping, and its `size` unchanged, so label resolution on
the product behaves exactly as on the left operand (even when the right
operand carries different labels).  In the value-semantics embedding
the operands themselves are trivially unmodified. -/
theorem C10_mul_copies_left_labels (a b c : Multinomial) (h : a.mul b = .ok c) :
    c.labeled = a.labeled ∧ c.labels = a.labels ∧ c.size = a.size ∧
    ∀ r, c.label_to_index r = a.label_to_index r := by
  unfold Multinomial.mul at h
  by_cases hs : a.size ≠ b.size
  · rw [if_pos hs] at h
    exact absurd h (by simp)
  · rw [if_neg hs] at h
    cases hf : List.foldlM (a.mulStep b) a.copy (List.range a.size) with
    | error e => rw [hf] at h; simp [Bind.bind, Except.bind] at h
    | ok bn =>
      rw [hf] at h
      simp only [Bind.bind, Except.bind] at h
      have hfields := foldlM_mulStep_fields a b (List.range a.size) a.copy bn hf
      split at h
      · exact absurd h (by simp)
      · injection h with h'
        rw [← h']
        refine ⟨hfields.1, hfields.2.1, hfields.2.2, fun r => ?_⟩
        unfold Multinomial.label_to_index
        rw [hfields.1, hfields.2.1]
        exact rfl

/-- Witness for C10: the product of a labeled left operand with an
unlabeled right operand keeps the left operand's labels, flag and
size. -/
theorem C10_mul_copies_left_labels_witness :
    (Multinomial.mk 2 [none, none] [1/7, 6/7] true [("x", 0), ("y", 1)]).labeled =
      (Multinomial.mk 2 [some 1, some 1] [1/3, 2/3] true [("x", 0), ("y", 1)]).labeled ∧
    (Multinomial.mk 2 [none, none] [1/7, 6/7] true [("x", 0), ("y", 1)]).labels =
      (Multinomial.mk 2 [some 1, some 1] [1/3, 2/3] true [("x", 0), ("y", 1)]).labels ∧
    (Multinomial.mk 2 [none, none] [1/7, 6/7] true [("x", 0), ("y", 1)]).size =
      (Multinomial.mk 2 [some 1, some 1] [1/3, 2/3] true [("x", 0), ("y", 1)]).size := by
  have h : (Multinomial.mk 2 [some 1, some 1] [1/3, 2/3] true [("x", 0), ("y", 1)]).mul
      ⟨2, [some 1, some 3], [1/4, 3/4], false, []⟩ =
      .ok ⟨2, [none, none], [1/7, 6/7], true, [("x", 0), ("y", 1)]⟩ := by
    rw [mul_eq _ _ (by rfl) (by rfl) (by rfl) (by rfl)]
    norm_num [List.range_succ, List.replicate]
  have hh := C10_mul_copies_left_labels _ _ _ h
  exact ⟨hh.1, hh.2.1, hh.2.2.1⟩

lemma klStep_self (m : Multinomial) (i : ℕ) (hi : i < m.probs.length)
    (hpos : 0 < m.probs.getD i 0) (acc : ℝ) :
    m.klStep m acc i = .ok acc := by
  have hp : m.probs.getD i 0 ≠ 0 := ne_of_gt hpos
  unfold Multinomial.klStep
  rw [get_p_int m i hi]
  simp only [Bind.bind, Except.bind]
  rw [if_neg hp]
  simp only [div_self hp]
  rw [if_neg (by norm_num)]
  have hcast : ((m.probs.getD i 0 : ℚ) : ℝ) / ((m.probs.getD i 0 : ℚ) : ℝ) = 1 :=
    div_self (by exact_mod_cast hp)
  rw [hcast, Real.log_one, mul_zero, add_zero]
  rfl

lemma klFold_self (m : Multinomial) (hpos : ∀ p ∈ m.probs, 0 < p) :
    ∀ (l : List ℕ), (∀ i ∈ l, i < m.probs.length) →
      ∀ acc : ℝ, List.foldlM (m.klStep m) acc l = .ok acc
  | [], _, acc => by rfl
  | i :: l, hl, acc => by
    rw [List.foldlM_cons]
    have hi : i < m.probs.length := hl i (by simp)
    have hgd : 0 < m.probs.getD i 0 :=
      hpos _ (List.get?_mem (get?_eq_some_getD m.probs 0 i hi))
    rw [klStep_self m i hi hgd acc]
    simp only [Bind.bind, Except.bind]
    exact klFold_self m hpos l (fun j hj => hl j (by simp [hj])) acc

/-- C9: KL divergence of a distribution with itself is exactly 0 for
both families: for a `Gaus1D` with positive variance and for a
well-formed `Multinomial` with strictly positive probabilities. -/
theorem C9_kl_self_zero :
    (∀ g : Gaus1D, 0 < g.variance → g.KL_Div g = 0) ∧
    (∀ m : Multinomial, m.probs.length = m.size → (∀ p ∈ m.probs, 0 < p) →
      m.KL_Div m = .ok 0) := by
  constructor
  · intro g hg
    have hg' : (0 : ℝ) < (g.variance : ℝ) := by exact_mod_cast hg
    have hsq : Real.sqrt (g.variance : ℝ) ≠ 0 := ne_of_gt (Real.sqrt_pos.mpr hg')
    simp only [Gaus1D.KL_Div]
    rw [div_self hsq, Real.log_one, sub_self, Real.sq_sqrt hg'.le]
    have hv : (g.variance : ℝ) ≠ 0 := ne_of_gt hg'
    field_simp
    ring
  · intro m hlen hpos
    unfold Multinomial.KL_Div
    rw [if_neg (not_not_intro rfl)]
    exact klFold_self m hpos (List.range m.size)
      (fun i hi => by rw [hlen]; exact List.mem_range.mp hi) 0

/-- Witness for C9: the standard Gaussian-like state `(mean 0,
variance 1)` and the one-class multinomial with probability 1. -/
theorem C9_kl_self_zero_witness :
    (Gaus1D.mk 0 1 2 0).KL_Div (Gaus1D.mk 0 1 2 0) = 0 ∧
    (Multinomial.mk 1 [some 1] [1] false []).KL_Div
      (Multinomial.mk 1 [some 1] [1] false []) = .ok 0 :=
  ⟨C9_kl_self_zero.1 _ (by norm_num),
   C9_kl_self_zero.2 _ (by rfl) (by intro p hp; simp at hp; rw [hp]; norm_num)⟩

lemma bind_ok_iff {α β : Type} {e : Except Err α} {f : α → Except Err β} {b : β} :
    (e >>= f) = .ok b ↔ ∃ a, e = .ok a ∧ f a = .ok b := by
  cases e <;> simp [Bind.bind, Except.bind]

lemma expectKey_get {j : JVal} {k : String} {v : JVal} (h : expectKey j k = .ok v) :
    j.get k = some v := by
  cases j with
  | num q => simp [expectKey] at h
  | str s => simp [expectKey] at h
  | bool b => simp [expectKey] at h
  | null => simp [expectKey] at h
  | obj fields =>
    simp only [expectKey] at h
    cases hl : fields.lookup k with
    | none => rw [hl] at h; exact absurd h (by simp)
    | some w =>
      rw [hl] at h
      injection h with h'
      simp only [JVal.get]
      rw [hl, h']

/-- C7 (amended): neither decoder silently substitutes a default — a
successfully decoded object carries exactly the values read from the
JSON input, so any missing required field makes decoding fail.  For the
Gaussian decoder the numeric fields additionally come through
`float(...)`, so a non-float-convertible value also fails (with the
decoder's `ValueError`); the Categorical decoder performs no such
conversion on its values, so a non-numeric count is accepted as-is (see
the counterexample) and a missing field surfaces as a bare
`KeyError`. -/
theorem C7_decode_no_defaults_amended :
    (∀ (j : JVal) (g : Gaus1D), gaus_1D_from_json j = .ok g →
      (j.get "mean").bind pyFloat = some g.mean ∧
      (j.get "variance").bind pyFloat = some g.variance ∧
      (j.get "M2").bind pyFloat = some g.M2 ∧
      (j.get "n").bind pyFloat = some g.n ∧
      (j.get "dist_type").isSome = true) ∧
    (∀ (j : JVal) (d : MultinomialDec), multinomial_from_json j = .ok d →
      (j.get "_n").isSome = true ∧ (j.get "_p").isSome = true ∧
      j.get "size" = some d.size ∧ j.get "labeled" = some d.labeled ∧
      j.get "labels" = some d.labels ∧ j.get "dist_type" = some d.dist_type) := by
  constructor
  · intro j g h
    unfold gaus_1D_from_json at h
    cases hm : (j.get "mean").bind pyFloat with
    | none => rw [hm] at h; simp at h
    | some vm =>
      rw [hm] at h
      cases hv : (j.get "variance").bind pyFloat with
      | none => rw [hv] at h; simp at h
      | some vv =>
        rw [hv] at h
        cases hM : (j.get "M2").bind pyFloat with
        | none => rw [hM] at h; simp at h
        | some vM =>
          rw [hM] at h
          cases hn : (j.get "n").bind pyFloat with
          | none => rw [hn] at h; simp at h
          | some vn =>
            rw [hn] at h
            cases hd : j.get "dist_type" with
            | none => rw [hd] at h; simp at h
            | some vd =>
              rw [hd] at h
              injection h with h'
              rw [← h']
              exact ⟨rfl, rfl, rfl, rfl, rfl⟩
  · intro j d h
    unfold multinomial_from_json at h
    obtain ⟨nraw, h1, h⟩ := bind_ok_iff.mp h
    obtain ⟨counts, h2, h⟩ := bind_ok_iff.mp h
    obtain ⟨praw, h3, h⟩ := bind_ok_iff.mp h
    obtain ⟨probs, h4, h⟩ := bind_ok_iff.mp h
    obtain ⟨vsize, h5, h⟩ := bind_ok_iff.mp h
    obtain ⟨vlab, h6, h⟩ := bind_ok_iff.mp h
    obtain ⟨vlabels, h7, h⟩ := bind_ok_iff.mp h
    obtain ⟨vdt, h8, h⟩ := bind_ok_iff.mp h
    simp only [pure, Except.pure] at h
    injection h with h'
    rw [← h']
    exact ⟨by rw [expectKey_get h1]; rfl, by rw [expectKey_get h3]; rfl,
      (expectKey_get h5).trans rfl, (expectKey_get h6).trans rfl,
      (expectKey_get h7).trans rfl, (expectKey_get h8).trans rfl⟩

/-- Witness for C7's amended theorem: a complete well-formed Gaussian
encoding and a complete Categorical encoding decode to exactly the
values present in the JSON. -/
theorem C7_decode_no_defaults_amended_witness :
    (((JVal.obj [("mean", .num 2), ("variance", .num 4), ("M2", .num 4), ("n", .num 2),
        ("dist_type", .str "Gaus1D")]).get "mean").bind pyFloat = some 2 ∧
      ((JVal.obj [("mean", .num 2), ("variance", .num 4), ("M2", .num 4), ("n", .num 2),
        ("dist_type", .str "Gaus1D")]).get "variance").bind pyFloat = some 4 ∧
      ((JVal.obj [("mean", .num 2), ("variance", .num 4), ("M2", .num 4), ("n", .num 2),
        ("dist_type", .str "Gaus1D")]).get "M2").bind pyFloat = some 4 ∧
      ((JVal.obj [("mean", .num 2), ("variance", .num 4), ("M2", .num 4), ("n", .num 2),
        ("dist_type", .str "Gaus1D")]).get "n").bind pyFloat = some 2 ∧
      ((JVal.obj [("mean", .num 2), ("variance", .num 4), ("M2", .num 4), ("n", .num 2),
        ("dist_type", .str "Gaus1D")]).get "dist_type").isSome = true) ∧
    ((JVal.obj [("_n", .obj [("0", .num 1)]), ("_p", .obj [("0", .num 1)]), ("size", .num 1),
        ("labeled", .bool false), ("labels", .obj []), ("dist_type", .str "Multinomial")]).get
      "size" = some (.num 1)) :=
  ⟨C7_decode_no_defaults_amended.1
      (JVal.obj [("mean", .num 2), ("variance", .num 4), ("M2", .num 4), ("n", .num 2),
        ("dist_type", .str "Gaus1D")]) ⟨2, 4, 2, 4⟩ (by rfl),
   (C7_decode_no_defaults_amended.2
      (JVal.obj [("_n", .obj [("0", .num 1)]), ("_p", .obj [("0", .num 1)]), ("size", .num 1),
        ("labeled", .bool false), ("labels", .obj []), ("dist_type", .str "Multinomial")])
      ⟨[(0, .num 1)], [(0, .num 1)], .num 1, .bool false, .obj [], .str "Multinomial"⟩
      (by rfl)).2.2.1⟩

/-- Counterexample to C7 as stated: a Categorical encoding whose `_n`
entry holds the non-numeric string `"abc"` decodes *successfully* —
`multinomial_from_json` performs no numeric validation of the dict
values — instead of failing with `MalformedInput`. -/
theorem C7_nonnumeric_count_accepted :
    multinomial_from_json (JVal.obj [("_n", .obj [("0", .str "abc")]),
      ("_p", .obj [("0", .num 1)]), ("size", .num 1), ("labeled", .bool false),
      ("labels", .obj []), ("dist_type", .str "Multinomial")]) =
    .ok ⟨[(0, .str "abc")], [(0, .num 1)], .num 1, .bool false, .obj [], .str "Multinomial"⟩ := by
  rfl

end DistributionMath
